import Mathlib

/- Verification of the tetrisroom Manager (package tetrisroom):
   a shallow embedding of the player registry, matcher, control-mode FSM,
   input gating and state store, with theorems about the matchmaking and
   room-installation behaviour.

   Modelling conventions:
   - Go maps (players, remote, rooms, states) become association lists
     with string keys; map assignment, deletion and in-place pointer
     mutation become alSet, alErase and alUpdate.
   - Go string comparison (byte order, which for valid UTF-8 agrees with
     code-point order) becomes strLt / strLe on the character list.
   - sort.Slice with the strict (ping, id) comparator becomes
     insertionSort with the reflexive closure candLE; candidate ids are
     pairwise distinct (they are map keys), so the sorted permutation is
     unique and any correct sort models sort.Slice.
   - time.Time is dropped from Player (no claim mentions updated_at);
     the InputEvent "at" field is a Nat, 0 playing the role of the zero
     time, and SubmitInput receives the current instant as a parameter.
   - pubsub.Publish is modelled by returning the list of (topic, event)
     pairs a call emits, in publish order; the in-memory bus never fails.
   - errors become an inductive; an operation that returns an error in Go
     performs no mutation before doing so (checked against the source),
     so the Except embedding carries no state in the error case. -/

namespace TetrisRoom

def ControlHuman : String := "human"
def ControlAgent : String := "agent"
def SourceHuman : String := "human"
def SourceAgent : String := "agent"

/-- Byte-order strict comparison on character lists, mirroring Go's
string less-than (UTF-8 byte order = code-point order). -/
def strLtChars : List Char → List Char → Bool
  | _, [] => false
  | [], _ :: _ => true
  | a :: as, b :: bs =>
    if a.toNat < b.toNat then true
    else if b.toNat < a.toNat then false
    else strLtChars as bs

/-- Go string less-than. -/
def strLt (a b : String) : Bool := strLtChars a.data b.data

/-- Reflexive closure of strLt: not (b < a). -/
def strLe (a b : String) : Bool := !(strLt b a)

/-- Player record (type Player), without the updated_at timestamp. -/
structure Player where
  id : String
  appID : String
  version : String
  pingMS : Int
  ready : Bool
  roomID : String
  controlMode : String
  agentID : String
deriving DecidableEq, Repr

/-- Room record (type Room), without created_at. -/
structure Room where
  id : String
  appID : String
  version : String
  hostID : String
  playerIDs : List String
deriving DecidableEq, Repr

/-- PlayerState snapshot (type PlayerState), without updated_at. -/
structure PlayerState where
  playerID : String
  source : String
  board : List String
  score : Int
  lines : Int
  level : Int
  gameOver : Bool
deriving DecidableEq, Repr

/-- JSON-like value, the model of Go "any" in input payloads. -/
inductive JVal where
  | str : String → JVal
  | num : Int → JVal
  | bool : Bool → JVal
  | arr : List JVal → JVal
  | null : JVal

/-- Input payload: the model of map[string]any. -/
def Payload := List (String × JVal)

/-- InputEvent record; payload none models a nil map, at = 0 models the
zero time. -/
structure InputEvent where
  playerID : String
  source : String
  action : String
  payload : Option Payload
  tick : Int
  atTime : Nat

/-- Published event body (the Event envelope restricted to the fields the
manager actually fills for each type). -/
inductive Event where
  | playerReady (p : Player)
  | roomAssigned (r : Room)
  | controlSwitchApplied (r : Room) (playerID fromMode toMode agentID : String)
  | roomInput (roomID : String) (input : InputEvent)

/-- Manager errors (the var block of errors.New values). -/
inductive MErr where
  | playerExists
  | localSeatOccupied
  | playerNotFound
  | roomNotFound
  | alreadyInRoom
  | invalidControlMode
  | controlModeMismatch
  | playerNotInRoom
  | playerNotRoomMember
  | pingRequiredForReady
deriving DecidableEq, Repr

/-- Map assignment m[k] = v on an association list. -/
def alSet {α : Type} (k : String) (v : α) : List (String × α) → List (String × α)
  | [] => [(k, v)]
  | (k', v') :: rest => if k' = k then (k, v) :: rest else (k', v') :: alSet k v rest

/-- Map deletion delete(m, k) on an association list. -/
def alErase {α : Type} (k : String) : List (String × α) → List (String × α)
  | [] => []
  | (k', v') :: rest => if k' = k then alErase k rest else (k', v') :: alErase k rest

/-- In-place mutation of the entry at key k through f. -/
def alUpdate {α : Type} (k : String) (f : α → α) : List (String × α) → List (String × α)
  | [] => []
  | (k', v') :: rest =>
    if k' = k then (k', f v') :: alUpdate k f rest else (k', v') :: alUpdate k f rest

/-- Manager state: the four maps and the room-id sequence counter. -/
structure Manager where
  players : List (String × Player)
  remote : List (String × Player)
  rooms : List (String × Room)
  states : List (String × List (String × PlayerState))
  seq : Nat

/-- NewManager: empty maps, counter at zero. -/
def newManager : Manager :=
  { players := [], remote := [], rooms := [], states := [], seq := 0 }

/-- Helper contains(items, id) from the source. -/
def containsId (items : List String) (id : String) : Bool :=
  match items with
  | [] => false
  | item :: rest => if item = id then true else containsId rest id

/-- Helper topicForRoom from the source. -/
def topicForRoom (roomID : String) : String := "tetris.room." ++ roomID

/-- RegisterPlayer: insert a new local player; fails with playerExists on a
known id and with localSeatOccupied when the registry is non-empty. -/
def registerPlayer (m : Manager) (id appID version : String) :
    Except MErr (Manager × Player) :=
  if (m.players.lookup id).isSome then .error .playerExists
  else if 0 < m.players.length then .error .localSeatOccupied
  else
    let p : Player :=
      { id := id, appID := appID, version := version, pingMS := 0, ready := false,
        roomID := "", controlMode := ControlHuman, agentID := "" }
    .ok ({ m with players := alSet id p m.players }, p)

/-- Field mutation shared by both UpsertPlayer branches: overwrite app_id
and version when non-empty, default an empty control mode to human. -/
def applyUpsert (p : Player) (appID version : String) : Player :=
  let p1 := if appID ≠ "" then { p with appID := appID } else p
  let p2 := if version ≠ "" then { p1 with version := version } else p1
  if p2.controlMode = "" then { p2 with controlMode := ControlHuman } else p2

/-- UpsertPlayer: create-or-update the local player; a second distinct id
fails with localSeatOccupied; app_id or version changes on a player in a
room fail with alreadyInRoom. -/
def upsertPlayer (m : Manager) (id appID version : String) :
    Except MErr (Manager × Player) :=
  match m.players.lookup id with
  | none =>
    if 0 < m.players.length then .error .localSeatOccupied
    else
      let p0 : Player :=
        { id := id, appID := "", version := "", pingMS := 0, ready := false,
          roomID := "", controlMode := ControlHuman, agentID := "" }
      let p := applyUpsert p0 appID version
      .ok ({ m with players := alSet id p m.players }, p)
  | some p =>
    if p.roomID ≠ "" ∧
        ((appID ≠ "" ∧ appID ≠ p.appID) ∨ (version ≠ "" ∧ version ≠ p.version)) then
      .error .alreadyInRoom
    else
      let p' := applyUpsert p appID version
      .ok ({ m with players := alSet id p' m.players }, p')

/-- Candidate as built by tryMatchLocked; fromLocal records whether the
entry came from the local players map. -/
structure Candidate where
  p : Player
  fromLocal : Bool
deriving DecidableEq, Repr

/-- Candidate predicate: ready, roomless, matching app and version. -/
def candOK (appID version : String) (p : Player) : Bool :=
  p.ready && p.roomID == "" && p.appID == appID && p.version == version

/-- Local candidates in registry order. -/
def localCandidates (m : Manager) (appID version : String) : List Candidate :=
  ((m.players.map Prod.snd).filter (candOK appID version)).map (fun p => ⟨p, true⟩)

/-- Remote-view candidates, shadowed by local candidates with the same id. -/
def remoteCandidates (m : Manager) (appID version : String) (shadow : List String) :
    List Candidate :=
  ((m.remote.map Prod.snd).filter
    (fun p => candOK appID version p && !(shadow.contains p.id))).map (fun p => ⟨p, false⟩)

/-- Union of local and remote candidates, local entries shadowing remote
entries with the same player id. -/
def collectCandidates (m : Manager) (appID version : String) : List Candidate :=
  let locals := localCandidates m appID version
  locals ++ remoteCandidates m appID version (locals.map (fun c => c.p.id))

/-- Reflexive closure of the sort.Slice comparator: ping ascending, ties
by id ascending. -/
def candLE (a b : Candidate) : Bool :=
  if a.p.pingMS = b.p.pingMS then strLe a.p.id b.p.id
  else decide (a.p.pingMS < b.p.pingMS)

/-- Propositional form of candLE, the sort relation of the Matcher. -/
def candLERel (a b : Candidate) : Prop := candLE a b = true

instance candLERelDec : DecidableRel candLERel :=
  fun a b => inferInstanceAs (Decidable (candLE a b = true))

/-- Room-id allocation room_<seq>. -/
def mkRoomID (n : Nat) : String := "room_" ++ toString n

/-- Field reset applied to a local player when it joins a room. -/
def resetPlayerForRoom (roomID : String) (p : Player) : Player :=
  { p with roomID := roomID, ready := false, controlMode := ControlHuman, agentID := "" }

/-- Member installation in tryMatchLocked: reset the local player when the
candidate is local, and drop the id from the remote view. -/
def installMember (roomID : String) (m : Manager) (c : Candidate) : Manager :=
  let m1 :=
    if c.fromLocal then
      { m with players := alUpdate c.p.id (resetPlayerForRoom roomID) m.players }
    else m
  { m1 with remote := alErase c.p.id m1.remote }

/-- The Matcher (tryMatchLocked): collect candidates, require at least two,
sort by (ping, id), take the first two, check that the smaller of the two
ids is a local player, then create and install the room and publish
room_assigned on the per-room and global topics. -/
def tryMatchLocked (m : Manager) (appID version : String) :
    Manager × Option Room × List (String × Event) :=
  let cands := collectCandidates m appID version
  if cands.length < 2 then (m, none, [])
  else
    match List.insertionSort candLERel cands with
    | c0 :: c1 :: _ =>
      let host := c0.p
      let owner := if strLt c1.p.id c0.p.id then c1.p.id else c0.p.id
      if (m.players.lookup owner).isNone then (m, none, [])
      else
        let roomID := mkRoomID (m.seq + 1)
        let room : Room :=
          { id := roomID, appID := appID, version := version, hostID := host.id,
            playerIDs := [c0.p.id, c1.p.id] }
        let m1 := { m with seq := m.seq + 1, rooms := alSet roomID room m.rooms }
        let m2 := installMember roomID (installMember roomID m1 c0) c1
        (m2, some room,
          [(topicForRoom roomID, .roomAssigned room), ("tetris.room", .roomAssigned room)])
    | _ => (m, none, [])

/-- The tryMatchLocked tail once the sorted candidate list starts with c0
and c1: the owner check followed by room construction and installation. -/
def matchOutcome (m : Manager) (appID version : String) (c0 c1 : Candidate) :
    Manager × Option Room × List (String × Event) :=
  let owner := if strLt c1.p.id c0.p.id then c1.p.id else c0.p.id
  if (m.players.lookup owner).isNone then (m, none, [])
  else
    let roomID := mkRoomID (m.seq + 1)
    let room : Room :=
      { id := roomID, appID := appID, version := version, hostID := c0.p.id,
        playerIDs := [c0.p.id, c1.p.id] }
    let m1 := { m with seq := m.seq + 1, rooms := alSet roomID room m.rooms }
    let m2 := installMember roomID (installMember roomID m1 c0) c1
    (m2, some room,
      [(topicForRoom roomID, .roomAssigned room), ("tetris.room", .roomAssigned room)])

/-- SetReady: validate ping, locality and roomlessness; mark ready, publish
player_ready, then run the Matcher; return the room the call created. -/
def setReady (m : Manager) (playerID : String) (pingMS : Int) :
    Except MErr (Manager × Option Room × List (String × Event)) :=
  if pingMS < 0 then .error .pingRequiredForReady
  else
    match m.players.lookup playerID with
    | none => .error .playerNotFound
    | some p =>
      if p.roomID ≠ "" then .error .alreadyInRoom
      else
        let p' := { p with ready := true, pingMS := pingMS }
        let m1 := { m with players := alSet playerID p' m.players }
        let readyEvt : List (String × Event) := [("tetris.player", .playerReady p')]
        let t := tryMatchLocked m1 p'.appID p'.version
        .ok (t.1, t.2.1, readyEvt ++ t.2.2)

/-- GetPlayer: defensive copy, playerNotFound on an unknown id. -/
def getPlayer (m : Manager) (playerID : String) : Except MErr Player :=
  match m.players.lookup playerID with
  | none => .error .playerNotFound
  | some p => .ok p

/-- ToggleControl: validate mode, room, membership and scoping; switch the
control mode, set or clear agent_id, publish control_switch_applied. -/
def toggleControl (m : Manager) (roomID playerID toMode agentID : String) :
    Except MErr (Manager × Player × List (String × Event)) :=
  if toMode ≠ ControlHuman ∧ toMode ≠ ControlAgent then .error .invalidControlMode
  else
    match m.rooms.lookup roomID with
    | none => .error .roomNotFound
    | some r =>
      if ¬ containsId r.playerIDs playerID then .error .playerNotRoomMember
      else
        match m.players.lookup playerID with
        | none => .error .playerNotFound
        | some p =>
          if p.roomID ≠ roomID then .error .playerNotInRoom
          else
            let p' :=
              { p with
                  controlMode := toMode,
                  agentID := if toMode = ControlAgent then agentID else "" }
            let m1 := { m with players := alSet playerID p' m.players }
            .ok (m1, p',
              [(topicForRoom r.id,
                  .controlSwitchApplied r playerID p.controlMode toMode p'.agentID),
               ("tetris.room",
                  .controlSwitchApplied r playerID p.controlMode toMode p'.agentID)])

/-- Helper toStringSlice on the list case: every element must be a string. -/
def allStrings : List JVal → Option (List String)
  | [] => some []
  | .str s :: rest => (allStrings rest).map (fun l => s :: l)
  | _ => none

/-- Helper toStringSlice from the source: accepts only a list whose
elements are all strings. -/
def toStringSlice : JVal → Option (List String)
  | .arr items => allStrings items
  | _ => none

/-- Helper toInt from the source applied to an optional payload value;
missing keys and non-numeric values yield the zero default. -/
def toIntOpt : Option JVal → Int
  | some (.num n) => n
  | _ => 0

/-- Helper reading game_over as a bool, defaulting to false. -/
def toBoolOpt : Option JVal → Bool
  | some (.bool b) => b
  | _ => false

/-- Payload lookup, the model of map indexing with the ok flag. -/
def pLookup (p : Payload) (k : String) : Option JVal := List.lookup k p

/-- The state upsert (upsertRoomState): reject unknown rooms, nil payloads,
missing board keys and non-string boards; otherwise overwrite the
per-player snapshot. -/
def upsertRoomState (m : Manager) (roomID : String) (ev : InputEvent) : Manager :=
  if (m.rooms.lookup roomID).isNone then m
  else
    match ev.payload with
    | none => m
    | some payload =>
      match pLookup payload "board" with
      | none => m
      | some boardAny =>
        match toStringSlice boardAny with
        | none => m
        | some board =>
          let st : PlayerState :=
            { playerID := ev.playerID, source := ev.source, board := board,
              score := toIntOpt (pLookup payload "score"),
              lines := toIntOpt (pLookup payload "lines"),
              level := toIntOpt (pLookup payload "level"),
              gameOver := toBoolOpt (pLookup payload "game_over") }
          let bucket := (m.states.lookup roomID).getD []
          { m with states := alSet roomID (alSet ev.playerID st bucket) m.states }

/-- SubmitInput: validate room, membership, scoping and the control-mode
gate; stamp a zero timestamp with now, apply state_sync snapshots, then
publish room_input on the per-room and global topics. -/
def submitInput (m : Manager) (now : Nat) (roomID : String) (ev : InputEvent) :
    Except MErr (Manager × List (String × Event)) :=
  match m.rooms.lookup roomID with
  | none => .error .roomNotFound
  | some r =>
    if ¬ containsId r.playerIDs ev.playerID then .error .playerNotRoomMember
    else
      match m.players.lookup ev.playerID with
      | none => .error .playerNotFound
      | some p =>
        if p.roomID ≠ roomID then .error .playerNotInRoom
        else if p.controlMode = ControlHuman ∧ ev.source ≠ SourceHuman then
          .error .controlModeMismatch
        else if p.controlMode = ControlAgent ∧ ev.source ≠ SourceAgent then
          .error .controlModeMismatch
        else
          let ev' := if ev.atTime = 0 then { ev with atTime := now } else ev
          let m' := if ev'.action = "state_sync" then upsertRoomState m roomID ev' else m
          .ok (m',
            [(topicForRoom roomID, .roomInput roomID ev'),
             ("tetris.room", .roomInput roomID ev')])

/-- Board duplication append([]string(nil), board...) at the read boundary. -/
def copyBoard (b : List String) : List String :=
  b.foldr (fun s acc => s :: acc) []

/-- GetRoomStates: roomNotFound on an unknown room, the empty map for a
known room without a bucket, and otherwise the bucket with boards
duplicated. -/
def getRoomStates (m : Manager) (roomID : String) :
    Except MErr (List (String × PlayerState)) :=
  if (m.rooms.lookup roomID).isNone then .error .roomNotFound
  else
    match m.states.lookup roomID with
    | none => .ok []
    | some bucket =>
      .ok (bucket.map (fun kv => (kv.1, { kv.2 with board := copyBoard kv.2.board })))

/-- Per-id step of the room_assigned consumer: drop the id from the remote
view and, when the id is local, reset the player into the room. -/
def assignStep (roomID pid : String) (m : Manager) : Manager :=
  let m1 := { m with remote := alErase pid m.remote }
  match m1.players.lookup pid with
  | some _ => { m1 with players := alUpdate pid (resetPlayerForRoom roomID) m1.players }
  | none => m1

/-- The room_assigned consumer's loop over the event's player ids. -/
def installAssigned (roomID : String) : Manager → List String → Manager
  | m, [] => m
  | m, pid :: rest => installAssigned roomID (assignStep roomID pid m) rest

/-- Room consumer handling of a room_assigned event: install the room copy,
process every listed player id, and ensure a state bucket exists. -/
def processRoomAssigned (m : Manager) (room : Room) : Manager :=
  let m1 := { m with rooms := alSet room.id room m.rooms }
  let m2 := installAssigned room.id m1 room.playerIDs
  if (m2.states.lookup room.id).isSome then m2
  else { m2 with states := alSet room.id [] m2.states }

/-- Player consumer handling of a player_ready event: refresh a roomless
local player, otherwise maintain the remote view, then run the Matcher. -/
def processPlayerReady (m : Manager) (incoming : Player) :
    Manager × Option Room × List (String × Event) :=
  let m1 :=
    match m.players.lookup incoming.id with
    | some lp =>
      if lp.roomID = "" then
        let refresh := fun (q : Player) =>
          { q with
              ready := incoming.ready,
              pingMS := incoming.pingMS,
              appID := incoming.appID,
              version := incoming.version }
        { m with players := alUpdate incoming.id refresh m.players }
      else m
    | none =>
      if incoming.roomID = "" ∧ incoming.ready then
        { m with remote := alSet incoming.id incoming m.remote }
      else
        { m with remote := alErase incoming.id m.remote }
  tryMatchLocked m1 incoming.appID incoming.version

/-- Field configuration a local player receives when installed into a room. -/
def InRoomReset (roomID : String) (p : Player) : Prop :=
  p.roomID = roomID ∧ p.ready = false ∧ p.controlMode = ControlHuman ∧ p.agentID = ""

/-- Mode/agent discipline a single player record satisfies. -/
def PlayerModeOK (p : Player) : Prop :=
  (p.controlMode = ControlHuman ∨ p.controlMode = ControlAgent) ∧
  (p.controlMode = ControlHuman → p.agentID = "")

/-- Mode/agent discipline over all local players of a manager. -/
def ManagerModeOK (m : Manager) : Prop :=
  ∀ kv ∈ m.players, PlayerModeOK kv.2

/-- Sample ready player used by concrete instantiations. -/
def samplePlayer (id : String) (ping : Int) : Player :=
  { id := id, appID := "tetris", version := "0.1.0", pingMS := ping, ready := true,
    roomID := "", controlMode := ControlHuman, agentID := "" }

/-- Two-node snapshot: alice local at ping 60, bob in the remote view at
ping 30, as in the cross-node test scenario. -/
def mTwo : Manager :=
  { players := [("alice", samplePlayer "alice" 60)],
    remote := [("bob", samplePlayer "bob" 30)],
    rooms := [], states := [], seq := 0 }

/-- The same snapshot seen from bob's node. -/
def mTwoB : Manager :=
  { players := [("bob", samplePlayer "bob" 30)],
    remote := [("alice", samplePlayer "alice" 60)],
    rooms := [], states := [], seq := 0 }

/-- Single-seat snapshot: alice already registered. -/
def mSeat : Manager :=
  { players := [("alice", samplePlayer "alice" 0)],
    remote := [], rooms := [], states := [], seq := 0 }

/-- A room holding players a and b. -/
def sampleRoom : Room :=
  { id := "room_1", appID := "tetris", version := "0.1.0", hostID := "a",
    playerIDs := ["a", "b"] }

/-- Player a installed in room_1, in human mode. -/
def pInRoom : Player :=
  { id := "a", appID := "tetris", version := "0.1.0", pingMS := 10, ready := false,
    roomID := "room_1", controlMode := ControlHuman, agentID := "" }

/-- Manager with room_1 installed and player a as its local member. -/
def mRoomed : Manager :=
  { players := [("a", pInRoom)], remote := [], rooms := [("room_1", sampleRoom)],
    states := [], seq := 1 }

/-- A state_sync input from player a with a two-row board. -/
def evSync : InputEvent :=
  { playerID := "a", source := SourceHuman, action := "state_sync",
    payload := some [("board", .arr [.str "..TT......", .str "...T......"]),
                     ("score", .num 123), ("lines", .num 4), ("level", .num 2),
                     ("game_over", .bool false)],
    tick := 0, atTime := 0 }

/-- A plain move input from player a with a zero timestamp. -/
def evMove : InputEvent :=
  { playerID := "a", source := SourceHuman, action := "move_left",
    payload := none, tick := 0, atTime := 0 }

/-- Candidate for bob as seen from alice's node. -/
def cBob : Candidate := ⟨samplePlayer "bob" 30, false⟩

/-- Candidate for alice as seen from alice's node. -/
def cAlice : Candidate := ⟨samplePlayer "alice" 60, true⟩

/-- Candidate for bob as seen from bob's node. -/
def cBobB : Candidate := ⟨samplePlayer "bob" 30, true⟩

/-- Candidate for alice as seen from bob's node. -/
def cAliceB : Candidate := ⟨samplePlayer "alice" 60, false⟩

/-- The room the matcher creates from mTwo. -/
def roomTwo : Room :=
  { id := "room_1", appID := "tetris", version := "0.1.0", hostID := "bob",
    playerIDs := ["bob", "alice"] }

/-- The manager m1 produced inside SetReady before the Matcher runs. -/
def readyM (m : Manager) (id : String) (p : Player) (ping : Int) : Manager :=
  { m with players := alSet id { p with ready := true, pingMS := ping } m.players }

/-- Move input with an agent source label. -/
def evAgentMove : InputEvent := { evMove with source := SourceAgent }

/-- evMove stamped at instant 42. -/
def evMove42 : InputEvent := { evMove with atTime := 42 }

/-- A state_sync input whose payload has no board key. -/
def evNoBoard : InputEvent :=
  { evSync with payload := some [("score", .num 1)] }

/-- Player a after a successful switch to an agent controller. -/
def pAgentOn : Player :=
  { pInRoom with controlMode := ControlAgent, agentID := "agent-openclaw-1" }

/-- mRoomed after the control switch of player a. -/
def mToggled : Manager := { mRoomed with players := [("a", pAgentOn)] }

/-- The two control_switch_applied publications of that switch. -/
def evsToggled : List (String × Event) :=
  [(topicForRoom "room_1",
      .controlSwitchApplied sampleRoom "a" ControlHuman ControlAgent "agent-openclaw-1"),
   ("tetris.room",
      .controlSwitchApplied sampleRoom "a" ControlHuman ControlAgent "agent-openclaw-1")]

theorem lookup_cons {α : Type} (k k0 : String) (v0 : α) (rest : List (String × α)) :
    List.lookup k ((k0, v0) :: rest) = if k = k0 then some v0 else List.lookup k rest := by
  simp only [List.lookup]
  by_cases h : k = k0
  · rw [if_pos h, beq_iff_eq.mpr h]
  · rw [if_neg h, beq_eq_false_iff_ne.mpr h]

theorem lookup_alSet {α : Type} (k k' : String) (v : α) (l : List (String × α)) :
    List.lookup k (alSet k' v l) = if k = k' then some v else List.lookup k l := by
  induction l with
  | nil =>
    simp only [alSet]
    rw [lookup_cons]
  | cons kv rest ih =>
    obtain ⟨k0, v0⟩ := kv
    simp only [alSet]
    by_cases h0 : k0 = k'
    · subst h0
      rw [if_pos rfl, lookup_cons, lookup_cons]
      by_cases h1 : k = k0 <;> simp [h1]
    · rw [if_neg h0, lookup_cons, lookup_cons]
      by_cases h1 : k = k0
      · subst h1
        have hkk : ¬ k = k' := fun h => h0 h
        simp [hkk]
      · simp [h1, ih]

theorem lookup_alErase {α : Type} (k k' : String) (l : List (String × α)) :
    List.lookup k (alErase k' l) = if k = k' then none else List.lookup k l := by
  induction l with
  | nil => by_cases h : k = k' <;> simp [alErase, List.lookup, h]
  | cons kv rest ih =>
    obtain ⟨k0, v0⟩ := kv
    simp only [alErase]
    by_cases h0 : k0 = k'
    · subst h0
      rw [if_pos rfl, ih, lookup_cons]
      by_cases h1 : k = k0 <;> simp [h1]
    · rw [if_neg h0, lookup_cons, lookup_cons]
      by_cases h1 : k = k0
      · subst h1
        have hkk : ¬ k = k' := fun h => h0 h
        simp [hkk]
      · simp [h1, ih]

theorem lookup_alUpdate {α : Type} (k k' : String) (f : α → α) (l : List (String × α)) :
    List.lookup k (alUpdate k' f l) =
      if k = k' then (List.lookup k l).map f else List.lookup k l := by
  induction l with
  | nil => by_cases h : k = k' <;> simp [alUpdate, List.lookup, h]
  | cons kv rest ih =>
    obtain ⟨k0, v0⟩ := kv
    simp only [alUpdate]
    by_cases h0 : k0 = k'
    · subst h0
      rw [if_pos rfl, lookup_cons, lookup_cons]
      by_cases h1 : k = k0 <;> simp [h1, ih]
    · rw [if_neg h0, lookup_cons, lookup_cons]
      by_cases h1 : k = k0
      · subst h1
        have hkk : ¬ k = k' := fun h => h0 h
        simp [hkk]
      · simp [h1, ih]

theorem length_alSet {α : Type} (k : String) (v : α) (l : List (String × α)) :
    (alSet k v l).length =
      if (List.lookup k l).isSome then l.length else l.length + 1 := by
  induction l with
  | nil => simp [alSet, List.lookup]
  | cons kv rest ih =>
    obtain ⟨k0, v0⟩ := kv
    simp only [alSet]
    by_cases h0 : k0 = k
    · subst h0
      rw [if_pos rfl, lookup_cons]
      simp
    · have hk : ¬ k = k0 := fun h => h0 h.symm
      rw [if_neg h0, lookup_cons, if_neg hk]
      simp only [List.length_cons, ih]
      by_cases hs : (List.lookup k rest).isSome <;> simp [hs]

theorem mem_alSet {α : Type} {x : String × α} {k : String} {v : α}
    {l : List (String × α)} (h : x ∈ alSet k v l) : x = (k, v) ∨ x ∈ l := by
  induction l with
  | nil =>
    left
    simpa [alSet] using h
  | cons kv rest ih =>
    obtain ⟨k0, v0⟩ := kv
    simp only [alSet] at h
    by_cases h0 : k0 = k
    · rw [if_pos h0] at h
      rcases List.mem_cons.mp h with h1 | h1
      · left; exact h1
      · right; exact List.mem_cons_of_mem _ h1
    · rw [if_neg h0] at h
      rcases List.mem_cons.mp h with h1 | h1
      · right
        rw [h1]
        exact List.mem_cons_self _ _
      · rcases ih h1 with h2 | h2
        · left; exact h2
        · right; exact List.mem_cons_of_mem _ h2

theorem mem_alUpdate {α : Type} {x : String × α} {k : String} {f : α → α}
    {l : List (String × α)} (h : x ∈ alUpdate k f l) :
    x ∈ l ∨ ∃ y ∈ l, x = (y.1, f y.2) := by
  induction l with
  | nil => simp [alUpdate] at h
  | cons kv rest ih =>
    obtain ⟨k0, v0⟩ := kv
    simp only [alUpdate] at h
    by_cases h0 : k0 = k
    · rw [if_pos h0] at h
      rcases List.mem_cons.mp h with h1 | h1
      · right
        exact ⟨(k0, v0), List.mem_cons_self _ _, h1⟩
      · rcases ih h1 with h2 | h2
        · left; exact List.mem_cons_of_mem _ h2
        · right
          obtain ⟨y, hy, hxy⟩ := h2
          exact ⟨y, List.mem_cons_of_mem _ hy, hxy⟩
    · rw [if_neg h0] at h
      rcases List.mem_cons.mp h with h1 | h1
      · left
        rw [h1]
        exact List.mem_cons_self _ _
      · rcases ih h1 with h2 | h2
        · left; exact List.mem_cons_of_mem _ h2
        · right
          obtain ⟨y, hy, hxy⟩ := h2
          exact ⟨y, List.mem_cons_of_mem _ hy, hxy⟩

theorem copyBoard_eq (b : List String) : copyBoard b = b := by
  induction b with
  | nil => rfl
  | cons s rest ih =>
    show s :: copyBoard rest = s :: rest
    rw [ih]

theorem strLtChars_irrefl (a : List Char) : strLtChars a a = false := by
  induction a with
  | nil => rfl
  | cons c rest ih => simp [strLtChars, ih]

theorem strLtChars_asymm :
    ∀ a b : List Char, strLtChars a b = true → strLtChars b a = false := by
  intro a
  induction a with
  | nil => intro b h; cases b <;> simp_all [strLtChars]
  | cons c rest ih =>
    intro b h
    cases b with
    | nil => simp_all [strLtChars]
    | cons d ds =>
      simp only [strLtChars] at h ⊢
      by_cases h1 : c.toNat < d.toNat <;> by_cases h2 : d.toNat < c.toNat <;>
        simp_all [ih ds] <;> omega

theorem strLtChars_not_trans :
    ∀ a b c : List Char, strLtChars b a = false → strLtChars c b = false →
      strLtChars c a = false := by
  intro a
  induction a with
  | nil => intro b c _ _; cases c <;> rfl
  | cons x xs ih =>
    intro b c hba hcb
    cases c with
    | nil =>
      cases b with
      | nil => simp_all [strLtChars]
      | cons y ys => simp_all [strLtChars]
    | cons z zs =>
      cases b with
      | nil => simp_all [strLtChars]
      | cons y ys =>
        simp only [strLtChars] at hba hcb ⊢
        by_cases hyx : y.toNat < x.toNat <;> by_cases hxy : x.toNat < y.toNat <;>
          by_cases hzy : z.toNat < y.toNat <;> by_cases hyz : y.toNat < z.toNat <;>
          by_cases hzx : z.toNat < x.toNat <;> by_cases hxz : x.toNat < z.toNat <;>
          simp_all <;> first
            | omega
            | exact ih ys zs hba hcb

theorem strLe_refl (a : String) : strLe a a = true := by
  simp [strLe, strLt, strLtChars_irrefl]

theorem strLe_total (a b : String) : (strLe a b || strLe b a) = true := by
  simp only [strLe, strLt, Bool.or_eq_true, Bool.not_eq_true']
  by_cases h : strLtChars b.data a.data = true
  · right; exact strLtChars_asymm _ _ h
  · left; simpa using h

theorem strLe_trans {a b c : String} (h1 : strLe a b = true) (h2 : strLe b c = true) :
    strLe a c = true := by
  simp only [strLe, Bool.not_eq_true', strLt] at h1 h2 ⊢
  exact strLtChars_not_trans a.data b.data c.data h1 h2

theorem strLe_antisymm_lt {a b : String} (h : strLe a b = true) (hne : strLt b a = true) :
    False := by
  simp [strLe, hne] at h

theorem candLE_refl (a : Candidate) : candLE a a = true := by
  simp [candLE, strLe_refl]

theorem candLE_total (a b : Candidate) : (candLE a b || candLE b a) = true := by
  simp only [candLE]
  by_cases h : a.p.pingMS = b.p.pingMS
  · simp [h, strLe_total]
  · have h' : b.p.pingMS ≠ a.p.pingMS := fun hh => h hh.symm
    simp only [if_neg h, if_neg h']
    by_cases hlt : a.p.pingMS < b.p.pingMS
    · simp [hlt]
    · have : b.p.pingMS < a.p.pingMS := by omega
      simp [this]

theorem candLE_trans (a b c : Candidate)
    (h1 : candLE a b = true) (h2 : candLE b c = true) : candLE a c = true := by
  simp only [candLE] at h1 h2 ⊢
  by_cases hab : a.p.pingMS = b.p.pingMS <;> by_cases hbc : b.p.pingMS = c.p.pingMS <;>
    by_cases hac : a.p.pingMS = c.p.pingMS <;>
    simp_all [decide_eq_true_eq]
  · exact strLe_trans h1 h2
  all_goals omega

theorem candLERel_total : ∀ a b : Candidate, candLERel a b ∨ candLERel b a := by
  intro a b
  have h := candLE_total a b
  rcases Bool.or_eq_true_iff.mp h with h1 | h1
  · left; exact h1
  · right; exact h1

theorem sortCands_sorted (l : List Candidate) :
    List.Sorted candLERel (List.insertionSort candLERel l) :=
  @List.sorted_insertionSort Candidate candLERel candLERelDec
    ⟨candLERel_total⟩ ⟨fun a b c => candLE_trans a b c⟩ l

theorem sorted_head_min {l : List Candidate} {c0 : Candidate} {rest : List Candidate}
    (h : List.insertionSort candLERel l = c0 :: rest) :
    ∀ c ∈ l, candLE c0 c = true := by
  intro c hc
  have hperm := List.perm_insertionSort candLERel l
  have hmem : c ∈ c0 :: rest := by
    rw [← h]
    exact hperm.mem_iff.mpr hc
  have hsorted := sortCands_sorted l
  rw [h] at hsorted
  rcases List.mem_cons.mp hmem with h1 | h1
  · rw [h1]
    exact candLE_refl c0
  · exact (List.pairwise_cons.mp hsorted).1 c h1

theorem sortCands_length_eq (l : List Candidate) :
    (List.insertionSort candLERel l).length = l.length :=
  (List.perm_insertionSort candLERel l).length_eq

theorem tryMatchLocked_short (m : Manager) (A V : String)
    (h : (collectCandidates m A V).length < 2) :
    tryMatchLocked m A V = (m, none, []) := by
  unfold tryMatchLocked
  simp [h]

theorem tryMatchLocked_cons (m : Manager) (A V : String) (c0 c1 : Candidate)
    (rest : List Candidate)
    (h : List.insertionSort candLERel (collectCandidates m A V) = c0 :: c1 :: rest) :
    tryMatchLocked m A V = matchOutcome m A V c0 c1 := by
  have hlen2 : ¬ (collectCandidates m A V).length < 2 := by
    have hl := sortCands_length_eq (collectCandidates m A V)
    rw [h] at hl
    simp only [List.length_cons] at hl
    omega
  unfold tryMatchLocked matchOutcome
  rw [if_neg hlen2, h]

theorem installMember_players_lookup (roomID : String) (m : Manager) (c : Candidate)
    (k : String) :
    (installMember roomID m c).players.lookup k =
      if c.fromLocal = true ∧ k = c.p.id then
        (m.players.lookup k).map (resetPlayerForRoom roomID)
      else m.players.lookup k := by
  by_cases hl : c.fromLocal = true
  · simp [installMember, hl, lookup_alUpdate]
  · simp [installMember, hl]

theorem installMember_remote_lookup (roomID : String) (m : Manager) (c : Candidate)
    (k : String) :
    (installMember roomID m c).remote.lookup k =
      if k = c.p.id then none else m.remote.lookup k := by
  by_cases hl : c.fromLocal = true
  · simp [installMember, hl, lookup_alErase]
  · simp [installMember, hl, lookup_alErase]

theorem installMember_states (roomID : String) (m : Manager) (c : Candidate) :
    (installMember roomID m c).states = m.states := by
  by_cases hl : c.fromLocal = true <;> simp [installMember, hl]

theorem installMember_rooms (roomID : String) (m : Manager) (c : Candidate) :
    (installMember roomID m c).rooms = m.rooms := by
  by_cases hl : c.fromLocal = true <;> simp [installMember, hl]

theorem resetPlayer_inRoomReset (roomID : String) (p : Player) :
    InRoomReset roomID (resetPlayerForRoom roomID p) := by
  simp [InRoomReset, resetPlayerForRoom]

theorem resetPlayer_modeOK (roomID : String) (p : Player) :
    PlayerModeOK (resetPlayerForRoom roomID p) := by
  constructor
  · left; rfl
  · intro _; rfl

theorem installMember_modeOK (roomID : String) (m : Manager) (c : Candidate)
    (hOK : ManagerModeOK m) : ManagerModeOK (installMember roomID m c) := by
  unfold installMember
  by_cases hl : c.fromLocal = true
  · simp only [hl, if_true]
    intro kv hkv
    simp only [hl, if_true] at hkv
    rcases mem_alUpdate hkv with h1 | ⟨y, hy, hxy⟩
    · exact hOK kv h1
    · rw [hxy]
      exact resetPlayer_modeOK roomID y.2
  · simp only [Bool.not_eq_true] at hl
    simp only [hl, Bool.false_eq_true, if_false]
    exact hOK

theorem tryMatch_modeOK (m : Manager) (A V : String) (hOK : ManagerModeOK m) :
    ManagerModeOK (tryMatchLocked m A V).1 := by
  unfold tryMatchLocked
  by_cases hlen : (collectCandidates m A V).length < 2
  · simp [hlen]
    exact hOK
  · simp only [if_neg hlen]
    rcases hms : List.insertionSort candLERel (collectCandidates m A V) with _ | ⟨c0, tail⟩
    · exact hOK
    · rcases tail with _ | ⟨c1, rest⟩
      · exact hOK
      · by_cases hown :
          (m.players.lookup (if strLt c1.p.id c0.p.id then c1.p.id else c0.p.id)).isNone
        · simp only [hown, if_pos rfl]
          exact hOK
        · simp only [Bool.not_eq_true] at hown
          simp only [hown, Bool.false_eq_true, if_false]
          apply installMember_modeOK
          apply installMember_modeOK
          exact hOK

theorem assignStep_players_lookup (roomID pid : String) (m : Manager) (k : String) :
    (assignStep roomID pid m).players.lookup k =
      if k = pid then (m.players.lookup k).map (resetPlayerForRoom roomID)
      else m.players.lookup k := by
  unfold assignStep
  rcases hlp : m.players.lookup pid with _ | q
  · simp only [hlp]
    by_cases hk : k = pid
    · subst hk
      simp [hlp]
    · simp [hk]
  · simp only [hlp]
    rw [lookup_alUpdate]

theorem assignStep_remote_lookup (roomID pid : String) (m : Manager) (k : String) :
    (assignStep roomID pid m).remote.lookup k =
      if k = pid then none else m.remote.lookup k := by
  unfold assignStep
  rcases hlp : m.players.lookup pid with _ | q <;> simp only [hlp] <;> rw [lookup_alErase]

theorem assignStep_rooms (roomID pid : String) (m : Manager) :
    (assignStep roomID pid m).rooms = m.rooms := by
  unfold assignStep
  rcases hlp : m.players.lookup pid with _ | q <;> simp [hlp]

theorem assignStep_states (roomID pid : String) (m : Manager) :
    (assignStep roomID pid m).states = m.states := by
  unfold assignStep
  rcases hlp : m.players.lookup pid with _ | q <;> simp [hlp]

theorem installAssigned_rooms (roomID : String) :
    ∀ (ids : List String) (m : Manager), (installAssigned roomID m ids).rooms = m.rooms := by
  intro ids
  induction ids with
  | nil => intro m; rfl
  | cons pid rest ih =>
    intro m
    show (installAssigned roomID (assignStep roomID pid m) rest).rooms = m.rooms
    rw [ih, assignStep_rooms]

theorem installAssigned_states (roomID : String) :
    ∀ (ids : List String) (m : Manager), (installAssigned roomID m ids).states = m.states := by
  intro ids
  induction ids with
  | nil => intro m; rfl
  | cons pid rest ih =>
    intro m
    show (installAssigned roomID (assignStep roomID pid m) rest).states = m.states
    rw [ih, assignStep_states]

theorem installAssigned_remote_none_mono (roomID : String) :
    ∀ (ids : List String) (m : Manager) (pid : String),
      m.remote.lookup pid = none →
      (installAssigned roomID m ids).remote.lookup pid = none := by
  intro ids
  induction ids with
  | nil => intro m pid h; exact h
  | cons q rest ih =>
    intro m pid h
    show (installAssigned roomID (assignStep roomID q m) rest).remote.lookup pid = none
    apply ih
    rw [assignStep_remote_lookup]
    by_cases hk : pid = q <;> simp [hk, h]

theorem installAssigned_remote_none (roomID : String) :
    ∀ (ids : List String) (m : Manager) (pid : String), pid ∈ ids →
      (installAssigned roomID m ids).remote.lookup pid = none := by
  intro ids
  induction ids with
  | nil => intro m pid h; simp at h
  | cons q rest ih =>
    intro m pid h
    show (installAssigned roomID (assignStep roomID q m) rest).remote.lookup pid = none
    rcases List.mem_cons.mp h with h1 | h1
    · apply installAssigned_remote_none_mono
      rw [assignStep_remote_lookup, if_pos h1]
    · exact ih _ pid h1

theorem installAssigned_players_mono (roomID : String) :
    ∀ (ids : List String) (m : Manager) (pid : String),
      (∀ q, m.players.lookup pid = some q → InRoomReset roomID q) →
      (∀ q, (installAssigned roomID m ids).players.lookup pid = some q →
        InRoomReset roomID q) := by
  intro ids
  induction ids with
  | nil => intro m pid h; exact h
  | cons x rest ih =>
    intro m pid h
    show ∀ q, (installAssigned roomID (assignStep roomID x m) rest).players.lookup pid =
        some q → InRoomReset roomID q
    apply ih
    intro q hq
    rw [assignStep_players_lookup] at hq
    by_cases hk : pid = x
    · rw [if_pos hk] at hq
      rcases hmap : m.players.lookup pid with _ | q0
      · rw [hmap] at hq; simp at hq
      · rw [hmap] at hq
        simp only [Option.map_some'] at hq
        rw [← Option.some.injEq] at hq
        have : q = resetPlayerForRoom roomID q0 := by
          simpa using hq.symm
        rw [this]
        exact resetPlayer_inRoomReset roomID q0
    · rw [if_neg hk] at hq
      exact h q hq

theorem installAssigned_players (roomID : String) :
    ∀ (ids : List String) (m : Manager) (pid : String), pid ∈ ids →
      (∀ q, (installAssigned roomID m ids).players.lookup pid = some q →
        InRoomReset roomID q) := by
  intro ids
  induction ids with
  | nil => intro m pid h; simp at h
  | cons x rest ih =>
    intro m pid h
    show ∀ q, (installAssigned roomID (assignStep roomID x m) rest).players.lookup pid =
        some q → InRoomReset roomID q
    rcases List.mem_cons.mp h with h1 | h1
    · apply installAssigned_players_mono
      intro q hq
      rw [assignStep_players_lookup, if_pos h1] at hq
      rcases hmap : m.players.lookup pid with _ | q0
      · rw [hmap] at hq; simp at hq
      · rw [hmap] at hq
        simp only [Option.map_some'] at hq
        have : q = resetPlayerForRoom roomID q0 := by
          simpa using hq.symm
        rw [this]
        exact resetPlayer_inRoomReset roomID q0
    · exact ih _ pid h1

theorem lookup_mem {α : Type} {k : String} {v : α} :
    ∀ {l : List (String × α)}, List.lookup k l = some v → (k, v) ∈ l := by
  intro l
  induction l with
  | nil => intro h; simp [List.lookup] at h
  | cons kv rest ih =>
    obtain ⟨k0, v0⟩ := kv
    intro h
    rw [lookup_cons] at h
    by_cases hk : k = k0
    · rw [if_pos hk] at h
      subst hk
      rw [Option.some.injEq] at h
      rw [h]
      exact List.mem_cons_self _ _
    · rw [if_neg hk] at h
      exact List.mem_cons_of_mem _ (ih h)

theorem copy_map_id (bucket : List (String × PlayerState)) :
    bucket.map (fun kv => (kv.1, { kv.2 with board := copyBoard kv.2.board })) = bucket := by
  induction bucket with
  | nil => rfl
  | cons kv rest ih =>
    obtain ⟨k, v⟩ := kv
    obtain ⟨pid, src, b, sc, ln, lv, go⟩ := v
    simp [copyBoard_eq, ih]

theorem allStrings_reject :
    ∀ (items : List JVal) (j : JVal), j ∈ items → (∀ s, j ≠ JVal.str s) →
      allStrings items = none := by
  intro items
  induction items with
  | nil => intro j h; simp at h
  | cons x rest ih =>
    intro j hj hns
    rcases List.mem_cons.mp hj with h1 | h1
    · cases x with
      | str s =>
        rw [h1] at hns
        exact absurd rfl (hns s)
      | num n => rfl
      | bool b => rfl
      | arr l => rfl
      | null => rfl
    · cases x with
      | str s =>
        show (allStrings rest).map (fun l => s :: l) = none
        rw [ih j h1 hns]
        rfl
      | num n => rfl
      | bool b => rfl
      | arr l => rfl
      | null => rfl

/-- C4: a manager's local registry holds at most one local player; a
second RegisterPlayer or UpsertPlayer call with a distinct id fails with
localSeatOccupied.  In the embedding an error carries no successor state,
matching the Go code, which performs no mutation before returning this
error. -/
theorem single_local_seat :
    (∀ (m : Manager) (id1 id2 a v : String) (p1 : Player),
      m.players = [(id1, p1)] → id2 ≠ id1 →
      registerPlayer m id2 a v = .error .localSeatOccupied ∧
      upsertPlayer m id2 a v = .error .localSeatOccupied)
    ∧ (∀ (m : Manager) (id a v : String) (m' : Manager) (q : Player),
        registerPlayer m id a v = .ok (m', q) →
        m.players = [] ∧ m'.players = [(id, q)])
    ∧ (∀ (m : Manager) (id a v : String) (m' : Manager) (q : Player),
        m.players.length ≤ 1 → upsertPlayer m id a v = .ok (m', q) →
        m'.players.length ≤ 1) := by
  refine ⟨?_, ?_, ?_⟩
  · intro m id1 id2 a v p1 hm hne
    constructor
    · unfold registerPlayer
      rw [hm, lookup_cons, if_neg hne]
      simp [List.lookup]
    · unfold upsertPlayer
      rw [hm, lookup_cons, if_neg hne]
      simp [List.lookup]
  · intro m id a v m' q h
    unfold registerPlayer at h
    by_cases h1 : (m.players.lookup id).isSome
    · rw [if_pos h1] at h
      simp at h
    · rw [if_neg h1] at h
      by_cases h2 : 0 < m.players.length
      · rw [if_pos h2] at h
        simp at h
      · rw [if_neg h2] at h
        have hempty : m.players = [] := List.length_eq_zero.mp (by omega)
        simp only [Except.ok.injEq, Prod.mk.injEq] at h
        obtain ⟨hm', hq⟩ := h
        refine ⟨hempty, ?_⟩
        rw [← hm']
        show alSet id _ m.players = [(id, q)]
        rw [hempty, ← hq]
        rfl
  · intro m id a v m' q hlen h
    rcases hl : m.players.lookup id with _ | p
    · simp only [upsertPlayer, hl] at h
      by_cases h2 : 0 < m.players.length
      · rw [if_pos h2] at h
        simp at h
      · rw [if_neg h2] at h
        simp only [Except.ok.injEq, Prod.mk.injEq] at h
        obtain ⟨hm', hq⟩ := h
        rw [← hm']
        show (alSet id _ m.players).length ≤ 1
        have hempty : m.players = [] := List.length_eq_zero.mp (by omega)
        rw [hempty]
        rfl
    · simp only [upsertPlayer, hl] at h
      by_cases hc : p.roomID ≠ "" ∧ ((a ≠ "" ∧ a ≠ p.appID) ∨ (v ≠ "" ∧ v ≠ p.version))
      · rw [if_pos hc] at h
        simp at h
      · rw [if_neg hc] at h
        simp only [Except.ok.injEq, Prod.mk.injEq] at h
        obtain ⟨hm', hq⟩ := h
        rw [← hm']
        show (alSet id _ m.players).length ≤ 1
        rw [length_alSet, hl]
        simpa using hlen

/-- C4 witness: with alice registered, registering or upserting bob fails
with localSeatOccupied. -/
theorem single_local_seat_witness :
    registerPlayer mSeat "bob" "tetris" "0.1.0" = .error .localSeatOccupied ∧
    upsertPlayer mSeat "bob" "tetris" "0.1.0" = .error .localSeatOccupied :=
  single_local_seat.1 mSeat "alice" "bob" "tetris" "0.1.0" (samplePlayer "alice" 0)
    rfl (by decide)

/-- C5: SetReady fails with pingRequiredForReady on a negative ping, with
playerNotFound on a non-local id, with alreadyInRoom when the player has a
room; otherwise it marks the player ready with the given ping, publishes
player_ready first, runs the Matcher on the updated registry, and returns
exactly the room that call created. -/
theorem setReady_contract (m : Manager) (id : String) (ping : Int) :
    (ping < 0 → setReady m id ping = .error .pingRequiredForReady)
    ∧ (0 ≤ ping → m.players.lookup id = none →
        setReady m id ping = .error .playerNotFound)
    ∧ (∀ p : Player, 0 ≤ ping → m.players.lookup id = some p → p.roomID ≠ "" →
        setReady m id ping = .error .alreadyInRoom)
    ∧ (∀ p : Player, 0 ≤ ping → m.players.lookup id = some p → p.roomID = "" →
        setReady m id ping =
          .ok ((tryMatchLocked (readyM m id p ping) p.appID p.version).1,
               (tryMatchLocked (readyM m id p ping) p.appID p.version).2.1,
               ("tetris.player", .playerReady { p with ready := true, pingMS := ping }) ::
                 (tryMatchLocked (readyM m id p ping) p.appID p.version).2.2)) := by
  refine ⟨?_, ?_, ?_, ?_⟩
  · intro hneg
    unfold setReady
    rw [if_pos hneg]
  · intro hpos hnone
    unfold setReady
    rw [if_neg (by omega), hnone]
  · intro p hpos hp hroom
    have h0 : ¬ ping < 0 := by omega
    simp only [setReady, h0, if_false, hp]
    rw [if_pos hroom]
  · intro p hpos hp hroom
    have h0 : ¬ ping < 0 := by omega
    simp only [setReady, h0, if_false, hp]
    rw [if_neg (by simp [hroom])]
    rfl

/-- C5 witness: a negative ping and an unknown player are rejected with
the expected errors. -/
theorem setReady_contract_witness :
    setReady mSeat "bob" (-1) = .error .pingRequiredForReady ∧
    setReady mSeat "bob" 3 = .error .playerNotFound :=
  ⟨(setReady_contract mSeat "bob" (-1)).1 (by decide),
   (setReady_contract mSeat "bob" 3).2.1 (by decide) rfl⟩

/-- C8: GetRoomStates returns roomNotFound exactly on unknown rooms, the
empty map for a known room without snapshots, and otherwise the stored
bucket with every board passed through the duplicating copy, which is
value-preserving. -/
theorem getRoomStates_contract (m : Manager) (roomID : String) :
    (getRoomStates m roomID = .error .roomNotFound ↔ m.rooms.lookup roomID = none)
    ∧ ((m.rooms.lookup roomID).isSome = true → m.states.lookup roomID = none →
        getRoomStates m roomID = .ok [])
    ∧ (∀ bucket, (m.rooms.lookup roomID).isSome = true →
        m.states.lookup roomID = some bucket →
        getRoomStates m roomID = .ok bucket ∧
        ∀ kv ∈ bucket, copyBoard kv.2.board = kv.2.board) := by
  refine ⟨?_, ?_, ?_⟩
  · unfold getRoomStates
    rcases hx : m.rooms.lookup roomID with _ | r
    · simp
    · rcases hs : m.states.lookup roomID with _ | bucket <;> simp
  · intro hr hs
    unfold getRoomStates
    rcases hx : m.rooms.lookup roomID with _ | r
    · rw [hx] at hr
      simp at hr
    · rw [hs]
      rfl
  · intro bucket hr hs
    constructor
    · unfold getRoomStates
      rcases hx : m.rooms.lookup roomID with _ | r
      · rw [hx] at hr
        simp at hr
      · rw [hs]
        show Except.ok (bucket.map _) = Except.ok bucket
        rw [copy_map_id]
    · intro kv _
      exact copyBoard_eq kv.2.board

/-- C8 witness: room_1 is known with no snapshots, so the result is the
empty map; an unknown room yields roomNotFound. -/
theorem getRoomStates_contract_witness :
    getRoomStates mRoomed "room_1" = .ok [] ∧
    getRoomStates mRoomed "nope" = .error .roomNotFound :=
  ⟨(getRoomStates_contract mRoomed "room_1").2.1 rfl rfl,
   (getRoomStates_contract mRoomed "nope").1.mpr rfl⟩

/-- C10: a state_sync upsert leaves the state store unchanged when the
room is unknown, the payload is nil, the payload has no board key, or the
board is not a list of strings (one non-string element rejects the whole
board); only an input passing every check overwrites the per-player
snapshot. -/
theorem stateSync_guards (m : Manager) (roomID : String) (ev : InputEvent) :
    (m.rooms.lookup roomID = none → upsertRoomState m roomID ev = m)
    ∧ (ev.payload = none → upsertRoomState m roomID ev = m)
    ∧ (∀ payload, ev.payload = some payload → pLookup payload "board" = none →
        upsertRoomState m roomID ev = m)
    ∧ (∀ payload bv, ev.payload = some payload → pLookup payload "board" = some bv →
        toStringSlice bv = none → upsertRoomState m roomID ev = m)
    ∧ (∀ (items : List JVal) (j : JVal), j ∈ items → (∀ s, j ≠ JVal.str s) →
        toStringSlice (JVal.arr items) = none)
    ∧ (∀ (r : Room) (payload : Payload) (bv : JVal) (board : List String),
        m.rooms.lookup roomID = some r → ev.payload = some payload →
        pLookup payload "board" = some bv → toStringSlice bv = some board →
        upsertRoomState m roomID ev =
          { m with
              states :=
                alSet roomID
                  (alSet ev.playerID
                    { playerID := ev.playerID
                      source := ev.source
                      board := board
                      score := toIntOpt (pLookup payload "score")
                      lines := toIntOpt (pLookup payload "lines")
                      level := toIntOpt (pLookup payload "level")
                      gameOver := toBoolOpt (pLookup payload "game_over") }
                    ((m.states.lookup roomID).getD []))
                  m.states }) := by
  refine ⟨?_, ?_, ?_, ?_, ?_, ?_⟩
  · intro hr
    unfold upsertRoomState
    rw [if_pos (by simp [hr])]
  · intro hp
    unfold upsertRoomState
    by_cases hr : (m.rooms.lookup roomID).isNone
    · rw [if_pos hr]
    · rw [if_neg hr, hp]
  · intro payload hp hb
    unfold upsertRoomState
    by_cases hr : (m.rooms.lookup roomID).isNone
    · rw [if_pos hr]
    · rw [if_neg hr]
      simp only [hp, hb]
  · intro payload bv hp hb hs
    unfold upsertRoomState
    by_cases hr : (m.rooms.lookup roomID).isNone
    · rw [if_pos hr]
    · rw [if_neg hr]
      simp only [hp, hb, hs]
  · intro items j hj hns
    exact allStrings_reject items j hj hns
  · intro r payload bv board hr hp hb hs
    unfold upsertRoomState
    rw [if_neg (by simp [hr])]
    simp only [hp, hb, hs]

/-- C10 witness: a payload without a board key leaves the store unchanged,
and a board with a non-string element is rejected by toStringSlice. -/
theorem stateSync_guards_witness :
    upsertRoomState mRoomed "room_1" evNoBoard = mRoomed ∧
    toStringSlice (JVal.arr [JVal.str "row", JVal.num 7]) = none :=
  ⟨(stateSync_guards mRoomed "room_1" evNoBoard).2.2.1 [("score", .num 1)] rfl rfl,
   (stateSync_guards mRoomed "room_1" evNoBoard).2.2.2.2.1 [JVal.str "row", JVal.num 7]
     (JVal.num 7) (by simp) (fun s h => by simp at h)⟩

/-- C6: for a SubmitInput call that passes the room, membership and
scoping checks, the result is controlModeMismatch exactly when the input
source differs from the player's control mode; the error branch returns
before any publish or state change. -/
theorem submitInput_gating (m : Manager) (now : Nat) (roomID : String) (ev : InputEvent)
    (r : Room) (p : Player)
    (hr : m.rooms.lookup roomID = some r)
    (hmem : containsId r.playerIDs ev.playerID = true)
    (hp : m.players.lookup ev.playerID = some p)
    (hscope : p.roomID = roomID)
    (hmode : p.controlMode = ControlHuman ∨ p.controlMode = ControlAgent) :
    submitInput m now roomID ev = .error .controlModeMismatch ↔
      ev.source ≠ p.controlMode := by
  unfold submitInput
  simp only [hr, hp]
  rw [if_neg (by simp [hmem]), if_neg (by simp [hscope])]
  rcases hmode with hm | hm
  · by_cases hsrc : ev.source = SourceHuman
    · rw [if_neg (by simp [hsrc]), if_neg (by rw [hm]; simp [ControlHuman, ControlAgent])]
      simp [hsrc, hm, SourceHuman, ControlHuman]
    · rw [if_pos ⟨hm, hsrc⟩]
      constructor
      · intro _
        rw [hm]
        exact hsrc
      · intro _
        rfl
  · by_cases hsrc : ev.source = SourceAgent
    · rw [if_neg (by rw [hm]; simp [ControlHuman, ControlAgent]), if_neg (by simp [hsrc])]
      simp [hsrc, hm, SourceAgent, ControlAgent]
    · rw [if_neg (by rw [hm]; simp [ControlHuman, ControlAgent]), if_pos ⟨hm, hsrc⟩]
      constructor
      · intro _
        rw [hm]
        exact hsrc
      · intro _
        rfl

/-- C6 witness: player a is in human mode, so an agent-sourced input into
room_1 is rejected with controlModeMismatch. -/
theorem submitInput_gating_witness :
    submitInput mRoomed 7 "room_1" evAgentMove = .error .controlModeMismatch :=
  (submitInput_gating mRoomed 7 "room_1" evAgentMove sampleRoom pInRoom rfl
    (by decide) rfl rfl (Or.inl rfl)).mpr (by decide)

/-- C7: an accepted input is stamped with the current instant when its
timestamp is zero, a state_sync snapshot is applied to the state store,
and the room_input event goes out on the per-room topic and the global
tetris.room topic. -/
theorem submitInput_effects (m : Manager) (now : Nat) (roomID : String) (ev : InputEvent)
    (m' : Manager) (evs : List (String × Event))
    (h : submitInput m now roomID ev = .ok (m', evs)) :
    (ev.atTime = 0 →
      m' = (if ev.action = "state_sync"
            then upsertRoomState m roomID { ev with atTime := now } else m) ∧
      evs = [(topicForRoom roomID, .roomInput roomID { ev with atTime := now }),
             ("tetris.room", .roomInput roomID { ev with atTime := now })])
    ∧ (ev.atTime ≠ 0 →
      m' = (if ev.action = "state_sync" then upsertRoomState m roomID ev else m) ∧
      evs = [(topicForRoom roomID, .roomInput roomID ev),
             ("tetris.room", .roomInput roomID ev)]) := by
  unfold submitInput at h
  rcases hr : m.rooms.lookup roomID with _ | r
  · simp only [hr] at h
    simp at h
  · simp only [hr] at h
    by_cases hmem : containsId r.playerIDs ev.playerID = true
    · rw [if_neg (by simp [hmem])] at h
      rcases hp : m.players.lookup ev.playerID with _ | p
      · simp only [hp] at h
        simp at h
      · simp only [hp] at h
        by_cases hscope : p.roomID = roomID
        · rw [if_neg (by simp [hscope])] at h
          by_cases hg1 : p.controlMode = ControlHuman ∧ ev.source ≠ SourceHuman
          · rw [if_pos hg1] at h
            simp at h
          · rw [if_neg hg1] at h
            by_cases hg2 : p.controlMode = ControlAgent ∧ ev.source ≠ SourceAgent
            · rw [if_pos hg2] at h
              simp at h
            · rw [if_neg hg2] at h
              constructor
              · intro hz
                rw [if_pos hz] at h
                simp only [Except.ok.injEq, Prod.mk.injEq] at h
                obtain ⟨h1, h2⟩ := h
                exact ⟨h1.symm, h2.symm⟩
              · intro hz
                rw [if_neg hz] at h
                simp only [Except.ok.injEq, Prod.mk.injEq] at h
                obtain ⟨h1, h2⟩ := h
                exact ⟨h1.symm, h2.symm⟩
        · rw [if_pos (by simp [hscope])] at h
          simp at h
    · rw [if_pos (by simp [hmem])] at h
      simp at h

/-- C7 witness: the accepted move input with a zero timestamp is stamped
at 42, leaves the state store alone, and is published on both topics. -/
theorem submitInput_effects_witness :
    mRoomed = (if evMove.action = "state_sync"
               then upsertRoomState mRoomed "room_1" evMove42 else mRoomed) ∧
    [(topicForRoom "room_1", Event.roomInput "room_1" evMove42),
     ("tetris.room", Event.roomInput "room_1" evMove42)] =
      [(topicForRoom "room_1", Event.roomInput "room_1" evMove42),
       ("tetris.room", Event.roomInput "room_1" evMove42)] :=
  (submitInput_effects mRoomed 42 "room_1" evMove mRoomed
      [(topicForRoom "room_1", Event.roomInput "room_1" evMove42),
       ("tetris.room", Event.roomInput "room_1" evMove42)] (by rfl)).1 rfl

/-- C1: with fewer than two candidates the Matcher returns none; otherwise
the room's members are the first two candidates in (ping ascending, id
ascending) order, the first is the host and is minimal among all
candidates, so a distinct-ping pair is hosted by the lower ping and an
equal-ping pair by the smaller id. -/
theorem matcher_pairing_rule (m : Manager) (A V : String) :
    ((collectCandidates m A V).length < 2 → tryMatchLocked m A V = (m, none, []))
    ∧ (∀ (c0 c1 : Candidate) (rest : List Candidate) (m' : Manager) (r : Room)
        (evs : List (String × Event)),
        List.insertionSort candLERel (collectCandidates m A V) = c0 :: c1 :: rest →
        tryMatchLocked m A V = (m', some r, evs) →
        r.hostID = c0.p.id ∧ r.playerIDs = [c0.p.id, c1.p.id]
        ∧ (∀ c ∈ collectCandidates m A V, candLE c0 c = true)
        ∧ (c0.p.pingMS ≠ c1.p.pingMS → c0.p.pingMS < c1.p.pingMS)
        ∧ (c0.p.pingMS = c1.p.pingMS → strLe c0.p.id c1.p.id = true)) := by
  constructor
  · exact tryMatchLocked_short m A V
  · intro c0 c1 rest m' r evs hs ht
    have hsorted := sortCands_sorted (collectCandidates m A V)
    rw [hs] at hsorted
    have h01 : candLE c0 c1 = true :=
      (List.sorted_cons.mp hsorted).1 c1 (List.mem_cons_self c1 rest)
    rw [tryMatchLocked_cons m A V c0 c1 rest hs] at ht
    simp only [matchOutcome] at ht
    by_cases hown :
        (m.players.lookup (if strLt c1.p.id c0.p.id then c1.p.id else c0.p.id)).isNone
    · rw [if_pos hown] at ht
      simp at ht
    · rw [if_neg hown] at ht
      simp only [Prod.mk.injEq] at ht
      obtain ⟨hm2, hr, hevs⟩ := ht
      rw [Option.some.injEq] at hr
      refine ⟨?_, ?_, ?_, ?_, ?_⟩
      · rw [← hr]
      · rw [← hr]
      · exact sorted_head_min hs
      · intro hne
        unfold candLE at h01
        rw [if_neg hne] at h01
        exact of_decide_eq_true h01
      · intro heq
        unfold candLE at h01
        rw [if_pos heq] at h01
        exact h01

/-- C1 witness: from alice (ping 60, local) and bob (ping 30, remote) the
created room is hosted by bob and lists bob before alice. -/
theorem matcher_pairing_rule_witness :
    roomTwo.hostID = "bob" ∧ roomTwo.playerIDs = ["bob", "alice"] :=
  have h := (matcher_pairing_rule mTwo "tetris" "0.1.0").2 cBob cAlice []
    (tryMatchLocked mTwo "tetris" "0.1.0").1 roomTwo
    (tryMatchLocked mTwo "tetris" "0.1.0").2.2 (by rfl) (by rfl)
  ⟨h.1, h.2.1⟩

/-- C2: with two selected candidates, let owner be the smaller of their
ids: the Matcher creates a room exactly when owner is in the local players
map, and otherwise returns none with no state change and no publish. -/
theorem matcher_ownership (m : Manager) (A V : String) (c0 c1 : Candidate)
    (rest : List Candidate)
    (hs : List.insertionSort candLERel (collectCandidates m A V) = c0 :: c1 :: rest) :
    (strLe (if strLt c1.p.id c0.p.id then c1.p.id else c0.p.id) c0.p.id = true ∧
     strLe (if strLt c1.p.id c0.p.id then c1.p.id else c0.p.id) c1.p.id = true)
    ∧ ((m.players.lookup (if strLt c1.p.id c0.p.id then c1.p.id else c0.p.id)).isSome =
          true → (tryMatchLocked m A V).2.1.isSome = true)
    ∧ ((m.players.lookup (if strLt c1.p.id c0.p.id then c1.p.id else c0.p.id)).isNone =
          true → tryMatchLocked m A V = (m, none, [])) := by
  refine ⟨⟨?_, ?_⟩, ?_, ?_⟩
  · by_cases hlt : strLt c1.p.id c0.p.id = true
    · rw [if_pos hlt]
      show (!(strLt c0.p.id c1.p.id)) = true
      have := strLtChars_asymm _ _ hlt
      show (!(strLtChars _ _)) = true
      rw [this]
      rfl
    · rw [if_neg hlt]
      exact strLe_refl c0.p.id
  · by_cases hlt : strLt c1.p.id c0.p.id = true
    · rw [if_pos hlt]
      exact strLe_refl c1.p.id
    · rw [if_neg hlt]
      have hfalse : strLt c1.p.id c0.p.id = false := by
        revert hlt
        cases strLt c1.p.id c0.p.id <;> simp
      show (!(strLt c1.p.id c0.p.id)) = true
      rw [hfalse]
      rfl
  · intro hsome
    rw [tryMatchLocked_cons m A V c0 c1 rest hs]
    simp only [matchOutcome]
    obtain ⟨q, hq⟩ := Option.isSome_iff_exists.mp hsome
    rw [if_neg (by simp [hq])]
    rfl
  · intro hnone
    rw [tryMatchLocked_cons m A V c0 c1 rest hs]
    simp only [matchOutcome]
    rw [if_pos hnone]

/-- C2 witness: alice's node (which owns the smaller id) creates the room,
while bob's node returns none and leaves its state untouched. -/
theorem matcher_ownership_witness :
    (tryMatchLocked mTwo "tetris" "0.1.0").2.1.isSome = true ∧
    tryMatchLocked mTwoB "tetris" "0.1.0" = (mTwoB, none, []) :=
  ⟨(matcher_ownership mTwo "tetris" "0.1.0" cBob cAlice [] (by rfl)).2.1 (by rfl),
   (matcher_ownership mTwoB "tetris" "0.1.0" cBobB cAliceB [] (by rfl)).2.2 (by rfl)⟩

theorem applyUpsert_fields (p : Player) (a v : String) :
    (applyUpsert p a v).controlMode =
      (if p.controlMode = "" then ControlHuman else p.controlMode) ∧
    (applyUpsert p a v).agentID = p.agentID := by
  unfold applyUpsert
  by_cases ha : a ≠ "" <;> by_cases hv : v ≠ "" <;>
    by_cases hm : p.controlMode = "" <;> simp [ha, hv, hm]

theorem applyUpsert_modeOK (p : Player) (a v : String) (h : PlayerModeOK p) :
    PlayerModeOK (applyUpsert p a v) := by
  obtain ⟨h1, h2⟩ := h
  obtain ⟨hcm, hag⟩ := applyUpsert_fields p a v
  have hm : ¬ p.controlMode = "" := by
    rcases h1 with h1 | h1 <;> rw [h1] <;> simp [ControlHuman, ControlAgent]
  constructor
  · rw [hcm, if_neg hm]
    exact h1
  · rw [hcm, if_neg hm, hag]
    exact h2

theorem assignStep_modeOK (roomID pid : String) (m : Manager)
    (hOK : ManagerModeOK m) : ManagerModeOK (assignStep roomID pid m) := by
  unfold assignStep
  rcases hlp : m.players.lookup pid with _ | q
  · simp only [hlp]
    exact hOK
  · simp only [hlp]
    intro kv hkv
    rcases mem_alUpdate hkv with h1 | ⟨y, hy, hxy⟩
    · exact hOK kv h1
    · rw [hxy]
      exact resetPlayer_modeOK roomID y.2

theorem installAssigned_modeOK (roomID : String) :
    ∀ (ids : List String) (m : Manager), ManagerModeOK m →
      ManagerModeOK (installAssigned roomID m ids) := by
  intro ids
  induction ids with
  | nil => intro m h; exact h
  | cons pid rest ih =>
    intro m h
    show ManagerModeOK (installAssigned roomID (assignStep roomID pid m) rest)
    exact ih _ (assignStep_modeOK roomID pid m h)

/-- C3 counterexample: ToggleControl accepts a human-to-agent switch with
an empty agent id, producing a player with control_mode agent and
agent_id empty, contrary to the claimed gating and invariant. -/
theorem control_mode_counterexample :
    (toggleControl mRoomed "room_1" "a" ControlAgent "").map
        (fun x => (x.2.1.controlMode, x.2.1.agentID)) =
      Except.ok (ControlAgent, "") := by rfl

/-- C3 amended: across every manager operation, control_mode stays in the
human/agent set and control_mode = human forces agent_id to be empty; the
human-to-agent transition is accepted for any supplied agent id, empty
included, and simply copies it into agent_id. -/
theorem control_mode_amended :
    (∀ (m : Manager) (id a v : String) (m' : Manager) (q : Player),
        ManagerModeOK m → registerPlayer m id a v = .ok (m', q) → ManagerModeOK m')
    ∧ (∀ (m : Manager) (id a v : String) (m' : Manager) (q : Player),
        ManagerModeOK m → upsertPlayer m id a v = .ok (m', q) → ManagerModeOK m')
    ∧ (∀ (m : Manager) (id : String) (ping : Int) (m' : Manager) (r : Option Room)
        (evs : List (String × Event)),
        ManagerModeOK m → setReady m id ping = .ok (m', r, evs) → ManagerModeOK m')
    ∧ (∀ (m : Manager) (rid pid tm aid : String) (m' : Manager) (q : Player)
        (evs : List (String × Event)),
        ManagerModeOK m → toggleControl m rid pid tm aid = .ok (m', q, evs) →
        ManagerModeOK m')
    ∧ (∀ (m : Manager) (room : Room), ManagerModeOK m →
        ManagerModeOK (processRoomAssigned m room))
    ∧ (∀ (m : Manager) (inc : Player), ManagerModeOK m →
        ManagerModeOK (processPlayerReady m inc).1)
    ∧ (∀ (m : Manager) (rid pid aid : String) (m' : Manager) (q : Player)
        (evs : List (String × Event)),
        toggleControl m rid pid ControlAgent aid = .ok (m', q, evs) →
        q.controlMode = ControlAgent ∧ q.agentID = aid) := by
  refine ⟨?_, ?_, ?_, ?_, ?_, ?_, ?_⟩
  · intro m id a v m' q hOK h
    unfold registerPlayer at h
    by_cases h1 : (m.players.lookup id).isSome
    · rw [if_pos h1] at h
      simp at h
    · rw [if_neg h1] at h
      by_cases h2 : 0 < m.players.length
      · rw [if_pos h2] at h
        simp at h
      · rw [if_neg h2] at h
        simp only [Except.ok.injEq, Prod.mk.injEq] at h
        obtain ⟨hm', hq⟩ := h
        rw [← hm']
        intro kv hkv
        rcases mem_alSet hkv with hx | hx
        · rw [hx]
          exact ⟨Or.inl rfl, fun _ => rfl⟩
        · exact hOK kv hx
  · intro m id a v m' q hOK h
    rcases hl : m.players.lookup id with _ | p
    · simp only [upsertPlayer, hl] at h
      by_cases h2 : 0 < m.players.length
      · rw [if_pos h2] at h
        simp at h
      · rw [if_neg h2] at h
        simp only [Except.ok.injEq, Prod.mk.injEq] at h
        obtain ⟨hm', hq⟩ := h
        rw [← hm']
        intro kv hkv
        rcases mem_alSet hkv with hx | hx
        · rw [hx]
          exact applyUpsert_modeOK _ a v ⟨Or.inl rfl, fun _ => rfl⟩
        · exact hOK kv hx
    · simp only [upsertPlayer, hl] at h
      by_cases hc : p.roomID ≠ "" ∧ ((a ≠ "" ∧ a ≠ p.appID) ∨ (v ≠ "" ∧ v ≠ p.version))
      · rw [if_pos hc] at h
        simp at h
      · rw [if_neg hc] at h
        simp only [Except.ok.injEq, Prod.mk.injEq] at h
        obtain ⟨hm', hq⟩ := h
        rw [← hm']
        intro kv hkv
        rcases mem_alSet hkv with hx | hx
        · rw [hx]
          exact applyUpsert_modeOK p a v (hOK (id, p) (lookup_mem hl))
        · exact hOK kv hx
  · intro m id ping m' r evs hOK h
    unfold setReady at h
    by_cases hneg : ping < 0
    · rw [if_pos hneg] at h
      simp at h
    · rw [if_neg hneg] at h
      rcases hl : m.players.lookup id with _ | p
      · simp only [hl] at h
        simp at h
      · simp only [hl] at h
        by_cases hroom : p.roomID ≠ ""
        · rw [if_pos hroom] at h
          simp at h
        · rw [if_neg hroom] at h
          simp only [Except.ok.injEq, Prod.mk.injEq] at h
          obtain ⟨h1, h2, h3⟩ := h
          rw [← h1]
          apply tryMatch_modeOK
          intro kv hkv
          rcases mem_alSet hkv with hx | hx
          · rw [hx]
            exact hOK (id, p) (lookup_mem hl)
          · exact hOK kv hx
  · intro m rid pid tm aid m' q evs hOK h
    unfold toggleControl at h
    by_cases hmode : tm ≠ ControlHuman ∧ tm ≠ ControlAgent
    · rw [if_pos hmode] at h
      simp at h
    · rw [if_neg hmode] at h
      rcases hr : m.rooms.lookup rid with _ | r0
      · simp only [hr] at h
        simp at h
      · simp only [hr] at h
        by_cases hmem : containsId r0.playerIDs pid = true
        · rw [if_neg (by simp [hmem])] at h
          rcases hp : m.players.lookup pid with _ | p
          · simp only [hp] at h
            simp at h
          · simp only [hp] at h
            by_cases hscope : p.roomID = rid
            · rw [if_neg (by simp [hscope])] at h
              simp only [Except.ok.injEq, Prod.mk.injEq] at h
              obtain ⟨h1, h2, h3⟩ := h
              rw [← h1]
              intro kv hkv
              rcases mem_alSet hkv with hx | hx
              · rw [hx]
                rcases not_and_or.mp hmode with hm | hm
                · rw [not_not] at hm
                  constructor
                  · left
                    rw [hm]
                  · intro _
                    rw [hm]
                    rfl
                · rw [not_not] at hm
                  constructor
                  · right
                    rw [hm]
                  · intro hh
                    rw [hm] at hh
                    exact absurd hh (by simp [ControlHuman, ControlAgent])
              · exact hOK kv hx
            · rw [if_pos (by simp [hscope])] at h
              simp at h
        · rw [if_pos (by simp [hmem])] at h
          simp at h
  · intro m room hOK
    unfold processRoomAssigned
    have h2 : ManagerModeOK
        (installAssigned room.id { m with rooms := alSet room.id room m.rooms }
          room.playerIDs) :=
      installAssigned_modeOK room.id room.playerIDs _ hOK
    by_cases hb :
        ((installAssigned room.id { m with rooms := alSet room.id room m.rooms }
          room.playerIDs).states.lookup room.id).isSome
    · rw [if_pos hb]
      exact h2
    · rw [if_neg hb]
      exact h2
  · intro m inc hOK
    unfold processPlayerReady
    rcases hl : m.players.lookup inc.id with _ | lp
    · simp only [hl]
      by_cases hc : inc.roomID = "" ∧ inc.ready = true
      · rw [if_pos hc]
        exact tryMatch_modeOK _ _ _ hOK
      · rw [if_neg hc]
        exact tryMatch_modeOK _ _ _ hOK
    · simp only [hl]
      by_cases hc : lp.roomID = ""
      · rw [if_pos hc]
        apply tryMatch_modeOK
        intro kv hkv
        rcases mem_alUpdate hkv with hx | ⟨y, hy, hxy⟩
        · exact hOK kv hx
        · rw [hxy]
          have := hOK y hy
          exact ⟨this.1, this.2⟩
      · rw [if_neg hc]
        exact tryMatch_modeOK _ _ _ hOK
  · intro m rid pid aid m' q evs h
    unfold toggleControl at h
    rw [if_neg (by simp [ControlHuman, ControlAgent])] at h
    rcases hr : m.rooms.lookup rid with _ | r0
    · simp only [hr] at h
      simp at h
    · simp only [hr] at h
      by_cases hmem : containsId r0.playerIDs pid = true
      · rw [if_neg (by simp [hmem])] at h
        rcases hp : m.players.lookup pid with _ | p
        · simp only [hp] at h
          simp at h
        · simp only [hp] at h
          by_cases hscope : p.roomID = rid
          · rw [if_neg (by simp [hscope])] at h
            simp only [Except.ok.injEq, Prod.mk.injEq] at h
            obtain ⟨h1, h2, h3⟩ := h
            rw [← h2]
            exact ⟨rfl, by simp⟩
          · rw [if_pos (by simp [hscope])] at h
            simp at h
      · rw [if_pos (by simp [hmem])] at h
        simp at h

/-- C3 amended witness: the toggle of player a to an agent controller
copies the supplied agent id into the player record. -/
theorem control_mode_amended_witness :
    pAgentOn.controlMode = ControlAgent ∧ pAgentOn.agentID = "agent-openclaw-1" :=
  control_mode_amended.2.2.2.2.2.2 mRoomed "room_1" "a" "agent-openclaw-1"
    mToggled pAgentOn evsToggled (by rfl)

/-- C9 counterexample: the Matcher installs room_1 from the two-candidate
snapshot, yet its state store holds no bucket for room_1 immediately after
the call. -/
theorem room_install_counterexample :
    (tryMatchLocked mTwo "tetris" "0.1.0").2.1 = some roomTwo ∧
    (tryMatchLocked mTwo "tetris" "0.1.0").1.states.lookup "room_1" = none :=
  ⟨rfl, rfl⟩

/-- C9 amended: the room consumer installs the room, resets every listed
local player, clears both ids from the remote view and ensures a state
bucket; the Matcher's local installation resets the locally-selected
members and clears the remote view but creates no state bucket itself
(the bucket appears when the self-published room_assigned is consumed). -/
theorem room_install_effects :
    (∀ (m : Manager) (room : Room),
      (processRoomAssigned m room).rooms.lookup room.id = some room
      ∧ (∀ pid ∈ room.playerIDs,
          (processRoomAssigned m room).remote.lookup pid = none)
      ∧ (∀ pid ∈ room.playerIDs, ∀ q,
          (processRoomAssigned m room).players.lookup pid = some q →
          InRoomReset room.id q)
      ∧ ((processRoomAssigned m room).states.lookup room.id).isSome = true)
    ∧ (∀ (m : Manager) (A V : String) (c0 c1 : Candidate) (rest : List Candidate)
        (m' : Manager) (r : Room) (evs : List (String × Event)),
        List.insertionSort candLERel (collectCandidates m A V) = c0 :: c1 :: rest →
        tryMatchLocked m A V = (m', some r, evs) →
        (c0.fromLocal = true → ∀ q, m'.players.lookup c0.p.id = some q →
          InRoomReset r.id q)
        ∧ (c1.fromLocal = true → ∀ q, m'.players.lookup c1.p.id = some q →
          InRoomReset r.id q)
        ∧ m'.remote.lookup c0.p.id = none
        ∧ m'.remote.lookup c1.p.id = none
        ∧ m'.states = m.states) := by
  constructor
  · intro m room
    unfold processRoomAssigned
    by_cases hb :
        ((installAssigned room.id { m with rooms := alSet room.id room m.rooms }
          room.playerIDs).states.lookup room.id).isSome = true
    · rw [if_pos hb]
      refine ⟨?_, ?_, ?_, hb⟩
      · rw [installAssigned_rooms]
        show List.lookup room.id (alSet room.id room m.rooms) = some room
        rw [lookup_alSet, if_pos rfl]
      · intro pid hpid
        exact installAssigned_remote_none room.id room.playerIDs _ pid hpid
      · intro pid hpid q hq
        exact installAssigned_players room.id room.playerIDs _ pid hpid q hq
    · rw [if_neg hb]
      refine ⟨?_, ?_, ?_, ?_⟩
      · show (installAssigned room.id { m with rooms := alSet room.id room m.rooms }
            room.playerIDs).rooms.lookup room.id = some room
        rw [installAssigned_rooms]
        show List.lookup room.id (alSet room.id room m.rooms) = some room
        rw [lookup_alSet, if_pos rfl]
      · intro pid hpid
        exact installAssigned_remote_none room.id room.playerIDs _ pid hpid
      · intro pid hpid q hq
        exact installAssigned_players room.id room.playerIDs _ pid hpid q hq
      · show ((alSet room.id []
            (installAssigned room.id { m with rooms := alSet room.id room m.rooms }
              room.playerIDs).states).lookup room.id).isSome = true
        rw [lookup_alSet, if_pos rfl]
        rfl
  · intro m A V c0 c1 rest m' r evs hs ht
    rw [tryMatchLocked_cons m A V c0 c1 rest hs] at ht
    simp only [matchOutcome] at ht
    by_cases hown :
        (m.players.lookup (if strLt c1.p.id c0.p.id then c1.p.id else c0.p.id)).isNone
    · rw [if_pos hown] at ht
      simp at ht
    · rw [if_neg hown] at ht
      simp only [Prod.mk.injEq] at ht
      obtain ⟨hm', hr, hevs⟩ := ht
      rw [Option.some.injEq] at hr
      have hid : r.id = mkRoomID (m.seq + 1) := by rw [← hr]
      refine ⟨?_, ?_, ?_, ?_, ?_⟩
      · intro hl q hq
        rw [← hm', installMember_players_lookup] at hq
        rw [hid]
        by_cases hc : c1.fromLocal = true ∧ c0.p.id = c1.p.id
        · rw [if_pos hc] at hq
          obtain ⟨q0, hq0, hq1⟩ := Option.map_eq_some'.mp hq
          rw [← hq1]
          exact resetPlayer_inRoomReset _ q0
        · rw [if_neg hc, installMember_players_lookup, if_pos ⟨hl, rfl⟩] at hq
          obtain ⟨q0, hq0, hq1⟩ := Option.map_eq_some'.mp hq
          rw [← hq1]
          exact resetPlayer_inRoomReset _ q0
      · intro hl q hq
        rw [← hm', installMember_players_lookup, if_pos ⟨hl, rfl⟩] at hq
        rw [hid]
        obtain ⟨q0, hq0, hq1⟩ := Option.map_eq_some'.mp hq
        rw [← hq1]
        exact resetPlayer_inRoomReset _ q0
      · rw [← hm', installMember_remote_lookup]
        by_cases hc : c0.p.id = c1.p.id
        · rw [if_pos hc]
        · rw [if_neg hc, installMember_remote_lookup, if_pos rfl]
      · rw [← hm', installMember_remote_lookup, if_pos rfl]
      · rw [← hm', installMember_states, installMember_states]

/-- C9 amended witness: after bob's node consumes the room_assigned event,
alice has been dropped from its remote view. -/
theorem room_install_effects_witness :
    (processRoomAssigned mTwoB roomTwo).remote.lookup "alice" = none :=
  (room_install_effects.1 mTwoB roomTwo).2.1 "alice" (by decide)

end TetrisRoom
